import Mathlib

/-!
Verification of the content-addressed snippet storage service (main.go).

The embedding models:
  * the key derivation `fmt.Sprintf("%x", sha256.Sum256(content))` via a
    full SHA-256 implementation on byte lists (`Nat` values below 256,
    word arithmetic carried out modulo 2^32);
  * the durable datastore and the memcache as association lists from key
    names to snippets, with explicit failure-injection parameters for the
    backend calls whose outcomes the Go code branches on;
  * `getSnippetFromKey` and `postSnippets` as functions over those states
    and outcomes, following the control flow of the source line by line.
-/

namespace Snippets

/-! ## SHA-256 on byte lists -/

/-- Word arithmetic modulus: 2^32. -/
def w32 : Nat := 4294967296

/-- Addition modulo 2^32. -/
def add32 (a b : Nat) : Nat := (a + b) % w32

/-- Right rotation of a 32-bit word. -/
def rotr32 (n x : Nat) : Nat := ((x >>> n) ||| (x <<< (32 - n))) % w32

/-- Choice function of the SHA-256 round. -/
def ch32 (x y z : Nat) : Nat := (x &&& y) ^^^ ((x ^^^ 4294967295) &&& z)

/-- Majority function of the SHA-256 round. -/
def maj32 (x y z : Nat) : Nat := (x &&& y) ^^^ (x &&& z) ^^^ (y &&& z)

/-- Big sigma-0 of SHA-256. -/
def bigS0 (x : Nat) : Nat := rotr32 2 x ^^^ rotr32 13 x ^^^ rotr32 22 x

/-- Big sigma-1 of SHA-256. -/
def bigS1 (x : Nat) : Nat := rotr32 6 x ^^^ rotr32 11 x ^^^ rotr32 25 x

/-- Small sigma-0 of SHA-256 (message schedule). -/
def smallS0 (x : Nat) : Nat := rotr32 7 x ^^^ rotr32 18 x ^^^ (x >>> 3)

/-- Small sigma-1 of SHA-256 (message schedule). -/
def smallS1 (x : Nat) : Nat := rotr32 17 x ^^^ rotr32 19 x ^^^ (x >>> 10)

/-- The 64 SHA-256 round constants (FIPS 180-4, written in decimal). -/
def sha256K : List Nat :=
  [1116352408, 1899447441, 3049323471, 3921009573,
   961987163, 1508970993, 2453635748, 2870763221,
   3624381080, 310598401, 607225278, 1426881987,
   1925078388, 2162078206, 2614888103, 3248222580,
   3835390401, 4022224774, 264347078, 604807628,
   770255983, 1249150122, 1555081692, 1996064986,
   2554220882, 2821834349, 2952996808, 3210313671,
   3336571891, 3584528711, 113926993, 338241895,
   666307205, 773529912, 1294757372, 1396182291,
   1695183700, 1986661051, 2177026350, 2456956037,
   2730485921, 2820302411, 3259730800, 3345764771,
   3516065817, 3600352804, 4094571909, 275423344,
   430227734, 506948616, 659060556, 883997877,
   958139571, 1322822218, 1537002063, 1747873779,
   1955562222, 2024104815, 2227730452, 2361852424,
   2428436474, 2756734187, 3204031479, 3329325298]

/-- Working state and hash state: eight 32-bit words. -/
structure Hash8 where
  h0 : Nat
  h1 : Nat
  h2 : Nat
  h3 : Nat
  h4 : Nat
  h5 : Nat
  h6 : Nat
  h7 : Nat
deriving DecidableEq, Repr

/-- The SHA-256 initial hash value (FIPS 180-4, written in decimal). -/
def sha256Init : Hash8 :=
  ⟨1779033703, 3144134277, 1013904242, 2773480762,
   1359893119, 2600822924, 528734635, 1541459225⟩

/-- One SHA-256 compression round; the argument is the round constant
already added (mod 2^32) to the schedule word. -/
def roundStep (st : Hash8) (kw : Nat) : Hash8 :=
  let t1 := add32 st.h7 (add32 (bigS1 st.h4) (add32 (ch32 st.h4 st.h5 st.h6) kw))
  let t2 := add32 (bigS0 st.h0) (maj32 st.h0 st.h1 st.h2)
  ⟨add32 t1 t2, st.h0, st.h1, st.h2, add32 st.h3 t1, st.h4, st.h5, st.h6⟩

/-- Extend the message schedule by `n` further words. -/
def extendW (ws : List Nat) : Nat → List Nat
  | 0 => ws
  | n + 1 =>
    let l := ws.length
    let nw := add32 (add32 (smallS1 (ws.getD (l - 2) 0)) (ws.getD (l - 7) 0))
                    (add32 (smallS0 (ws.getD (l - 15) 0)) (ws.getD (l - 16) 0))
    extendW (ws ++ [nw]) n

/-- Big-endian 32-bit words from a byte list. -/
def bytesToWords : List Nat → List Nat
  | b0 :: b1 :: b2 :: b3 :: rest =>
      (((b0 * 256 + b1) * 256 + b2) * 256 + b3) :: bytesToWords rest
  | _ => []

/-- Compress one 64-byte block into the running hash state. -/
def compressBlock (st : Hash8) (block : List Nat) : Hash8 :=
  let ws := extendW (bytesToWords block) 48
  let f := (List.zipWith add32 sha256K ws).foldl roundStep st
  ⟨add32 st.h0 f.h0, add32 st.h1 f.h1, add32 st.h2 f.h2, add32 st.h3 f.h3,
   add32 st.h4 f.h4, add32 st.h5 f.h5, add32 st.h6 f.h6, add32 st.h7 f.h7⟩

/-- The eight-byte big-endian rendering of the message bit length. -/
def lenBytes64 (n : Nat) : List Nat :=
  [(n >>> 56) % 256, (n >>> 48) % 256, (n >>> 40) % 256, (n >>> 32) % 256,
   (n >>> 24) % 256, (n >>> 16) % 256, (n >>> 8) % 256, n % 256]

/-- SHA-256 padding: a 0x80 byte, zeros to 56 mod 64, then the bit length. -/
def padMsg (msg : List Nat) : List Nat :=
  msg ++ 128 :: (List.replicate ((64 - (msg.length + 9) % 64) % 64) 0 ++ lenBytes64 (8 * msg.length))

/-- Split a byte list into `n` blocks of 64 bytes. -/
def chunk64 (l : List Nat) : Nat → List (List Nat)
  | 0 => []
  | n + 1 => l.take 64 :: chunk64 (l.drop 64) n

/-- The four big-endian bytes of a 32-bit word. -/
def wordBytes (w : Nat) : List Nat :=
  [(w >>> 24) % 256, (w >>> 16) % 256, (w >>> 8) % 256, w % 256]

/-- The 32 digest bytes of a final hash state. -/
def digestBytes (h : Hash8) : List Nat :=
  wordBytes h.h0 ++ wordBytes h.h1 ++ wordBytes h.h2 ++ wordBytes h.h3 ++
  wordBytes h.h4 ++ wordBytes h.h5 ++ wordBytes h.h6 ++ wordBytes h.h7

/-- SHA-256 digest (32 bytes) of a byte list: the model of Go
`sha256.Sum256(content)`. -/
def sha256 (msg : List Nat) : List Nat :=
  digestBytes ((chunk64 (padMsg msg) ((padMsg msg).length / 64)).foldl compressBlock sha256Init)

/-! ## Lowercase hexadecimal rendering -/

/-- A single lowercase hexadecimal digit, through ASCII codes: values below
ten map to the digit characters (codes 48 to 57), values ten to fifteen to
the letters a to f (codes 97 to 102). -/
def hexDigit (n : Nat) : Char :=
  Char.ofNat (if n < 10 then 48 + n else 87 + n)

/-- Recognizer for lowercase hexadecimal characters, by ASCII code. -/
def isHexChar (ch : Char) : Bool :=
  (decide (48 ≤ ch.toNat) && decide (ch.toNat ≤ 57)) ||
  (decide (97 ≤ ch.toNat) && decide (ch.toNat ≤ 102))

/-- Two lowercase hex characters per byte, as Go `fmt.Sprintf("%x", ...)`
renders a byte array. -/
def toHexChars : List Nat → List Char
  | [] => []
  | b :: bs => hexDigit (b / 16 % 16) :: hexDigit (b % 16) :: toHexChars bs

/-- The key name of a content: the lowercase hex SHA-256 digest, as in
`keyName := fmt.Sprintf("%x", sha256.Sum256(content))`. -/
def keyOf (content : List Nat) : String :=
  String.mk (toHexChars (sha256 content))

/-! ## Data model and backend states

A `Snippet` mirrors the Go struct (`CreatedAt time.Time`, `Content []uint8`);
time is modelled as a natural number.  The datastore and the memcache are
association lists from key names to snippets; the head of the list is the
most recently written entry, and lookup finds the first match. -/

/-- The stored record: creation time and content bytes. -/
structure Snippet where
  CreatedAt : Nat
  Content : List Nat
deriving DecidableEq, Repr

/-- The durable datastore state, keyed by key name. -/
abbrev Store := List (String × Snippet)

/-- The memcache state, keyed by key name. -/
abbrev CacheState := List (String × Snippet)

/-- First-match lookup in an association list. -/
def lookupKey : List (String × Snippet) → String → Option Snippet
  | [], _ => none
  | (k2, s) :: rest, k => if k2 = k then some s else lookupKey rest k

/-- Number of entries stored under a given key name. -/
def countKey : List (String × Snippet) → String → Nat
  | [], _ => 0
  | (k2, _) :: rest, k => (if k2 = k then 1 else 0) + countKey rest k

/-! ## Backend call outcomes

The Go code branches on the error value of each backend call.  Each call
outcome is represented explicitly so that the control flow of
`getSnippetFromKey` and `postSnippets` can be embedded faithfully. -/

/-- Outcome of `memcache.Gob.Get`: a hit (`err == nil`), the distinguished
miss error `memcache.ErrCacheMiss`, or any other backend failure. -/
inductive CacheGetR where
  | hit (s : Snippet)
  | miss
  | fail
deriving DecidableEq, Repr

/-- Outcome of `datastore.Get`: found (`err == nil`), the distinguished
`datastore.ErrNoSuchEntity`, or any other backend failure. -/
inductive DsGetR where
  | found (s : Snippet)
  | noEntity
  | fail
deriving DecidableEq, Repr

/-- Result of the read path: the Go function returns `(s, nil)` on success,
`(nil, nil)` when the key is unknown, and `(nil, err)` on failure. -/
inductive GetResult where
  | ok (s : Snippet)
  | notFound
  | err
deriving DecidableEq, Repr

/-! ## The read path: getSnippetFromKey -/

/-- The control flow of `getSnippetFromKey`, parametrised by the outcomes of
the three backend calls it makes: the memcache get, the datastore get, and
the cache-warming memcache set (`csOk = true` means the set succeeded).

Following the source: a cache hit returns at once; a cache error other than
`ErrCacheMiss` is returned as an error; on a miss the datastore is read;
`ErrNoSuchEntity` yields the not-found result (`nil, nil`); after a datastore
hit the record is written to the memcache, and a failure of that set is
returned as an error. -/
def getSnippetFromKey (cg : CacheGetR) (dg : DsGetR) (csOk : Bool) : GetResult :=
  match cg with
  | .hit s => .ok s
  | .fail => .err
  | .miss =>
    match dg with
    | .fail => .err
    | .noEntity => .notFound
    | .found s => if csOk then .ok s else .err

/-- The HTTP status `getSnippets` produces for each read outcome:
500 on error, 404 when the snippet is absent, 200 with the content body
otherwise. -/
def getStatus : GetResult → Nat
  | .ok _ => 200
  | .notFound => 404
  | .err => 500

/-- The honest memcache-get outcome determined by the cache state. -/
def cacheGetOf (ca : CacheState) (k : String) : CacheGetR :=
  match lookupKey ca k with
  | some s => .hit s
  | none => .miss

/-- The honest datastore-get outcome determined by the store state. -/
def dsGetOf (st : Store) (k : String) : DsGetR :=
  match lookupKey st k with
  | some s => .found s
  | none => .noEntity

/-- The read path against reliable backends: outcomes are determined by the
states and the cache-warming set succeeds, updating the cache.  Returns the
result together with the cache state after the call. -/
def getReliable (ca : CacheState) (st : Store) (k : String) : GetResult × CacheState :=
  match lookupKey ca k with
  | some s => (.ok s, ca)
  | none =>
    match lookupKey st k with
    | none => (.notFound, ca)
    | some s => (.ok s, (k, s) :: ca)

/-! ## The write path: postSnippets -/

/-- Maximum accepted content size, `maxContentSizeInBytes = 10 * 1024`. -/
def maxContentSizeInBytes : Nat := 10 * 1024

/-- The response `postSnippets` sends: the 400 rejection for an oversized
body, the 400 storage-failure message, 201 with the key for a fresh
creation, or 200 with the key when the record already existed. -/
inductive PostResp where
  | tooBig
  | storeErr
  | createdResp (key : String)
  | existedResp (key : String)
deriving DecidableEq, Repr

/-- The HTTP status of each write response. -/
def postStatus : PostResp → Nat
  | .tooBig => 400
  | .storeErr => 400
  | .createdResp _ => 201
  | .existedResp _ => 200

/-- Everything observable after a `postSnippets` call: the response, the
snippet bound to the local variable `s` at the end of the transaction (none
when no snippet was read or built), and the two backend states. -/
structure PostOutcome where
  resp : PostResp
  seen : Option Snippet
  store : Store
  cache : CacheState
deriving DecidableEq, Repr

/-- The control flow of `postSnippets` after the body has been read,
parametrised by the content, the backend states, the creation time
(`time.Now()`), and two failure injections: `dsFail` makes the datastore
transaction fail (any error by `datastore.Get` or `datastore.Put` inside
`RunInTransaction`), `csetFail` makes the post-creation `memcache.Gob.Set`
fail.

Following the source: an oversized body is rejected with 400 before the key
is derived and before any backend call; the key is the hex SHA-256 of the
content; the transaction reads the key and either finds the existing
snippet (`created` stays false) or persists a new one (`created := true`);
a transaction error yields the 400 storage message with no state change;
when `created`, the record is written to the memcache and a failure of that
set yields the 400 storage message (the datastore write has already
committed); otherwise the memcache is not touched. -/
def postSnippets (content : List Nat) (st : Store) (ca : CacheState) (now : Nat)
    (dsFail csetFail : Bool) : PostOutcome :=
  if content.length > maxContentSizeInBytes then
    ⟨.tooBig, none, st, ca⟩
  else
    let keyName := keyOf content
    if dsFail then
      ⟨.storeErr, none, st, ca⟩
    else
      match lookupKey st keyName with
      | some s => ⟨.existedResp keyName, some s, st, ca⟩
      | none =>
        let s : Snippet := ⟨now, content⟩
        if csetFail then
          ⟨.storeErr, some s, (keyName, s) :: st, ca⟩
        else
          ⟨.createdResp keyName, some s, (keyName, s) :: st, (keyName, s) :: ca⟩

/-- A serialized run of several `postSnippets` calls with the same content,
one per creation time in the list; the datastore transaction is atomic, so
any concurrent execution of the calls is one such serialization.  Backends
are reliable during the run.  Returns the outcomes in order together with
the final states. -/
def runPuts (c : List Nat) (ts : List Nat) (st : Store) (ca : CacheState) :
    List PostOutcome × Store × CacheState :=
  match ts with
  | [] => ([], st, ca)
  | t :: rest =>
    let o := postSnippets c st ca t false false
    let r := runPuts c rest o.store o.cache
    (o :: r.1, r.2)

/-- Observer: the content carried by a successful read result. -/
def resultContent : GetResult → Option (List Nat)
  | .ok s => some s.Content
  | .notFound => none
  | .err => none

/-- Known-answer check: SHA-256 of the empty message. -/
theorem sha256_empty_vector :
    toHexChars (sha256 []) =
      "e3b0c44298fc1c149afbf4c8996fb92427ae41e4649b934ca495991b7852b855".data := by
  decide

/-- Known-answer check: SHA-256 of the three bytes of "abc". -/
theorem sha256_abc_vector :
    toHexChars (sha256 [97, 98, 99]) =
      "ba7816bf8f01cfea414140de5dae2223b00361a396177a9cb410ff61f20015ad".data := by
  decide

/-! ## Helper lemmas -/

/-- Every digest has exactly 32 bytes. -/
theorem sha256_length (c : List Nat) : (sha256 c).length = 32 := rfl

/-- Hex digits of values below 16 are lowercase hexadecimal characters. -/
theorem hexDigit_isHex (n : Nat) (h : n < 16) : isHexChar (hexDigit n) = true := by
  interval_cases n <;> rfl

/-- Hex rendering doubles the length. -/
theorem toHexChars_length (bs : List Nat) : (toHexChars bs).length = 2 * bs.length := by
  induction bs with
  | nil => rfl
  | cons b bs ih => simp [toHexChars, ih]; omega

/-- Every character of a hex rendering is a lowercase hexadecimal character. -/
theorem toHexChars_all (bs : List Nat) : (toHexChars bs).all isHexChar = true := by
  induction bs with
  | nil => rfl
  | cons b bs ih =>
    simp only [toHexChars, List.all_cons, ih, Bool.and_true]
    rw [hexDigit_isHex _ (Nat.mod_lt _ (by omega)),
        hexDigit_isHex _ (Nat.mod_lt _ (by omega))]
    rfl

/-- A key that lookup does not find has no entries. -/
theorem lookupKey_none_countKey (l : List (String × Snippet)) (k : String)
    (h : lookupKey l k = none) : countKey l k = 0 := by
  induction l with
  | nil => rfl
  | cons e rest ih =>
    obtain ⟨k2, s⟩ := e
    by_cases hk : k2 = k
    · simp [lookupKey, hk] at h
    · simp only [lookupKey, hk, if_false] at h
      simp [countKey, hk, ih h]

/-- Writing with a key already stored leaves every state unchanged and
answers the existing snippet, whatever the creation times. -/
theorem runPuts_existing (c : List Nat) (ts : List Nat) (st : Store) (ca : CacheState)
    (s : Snippet) (hlen : ¬ c.length > maxContentSizeInBytes)
    (hs : lookupKey st (keyOf c) = some s) :
    runPuts c ts st ca =
      (List.replicate ts.length ⟨.existedResp (keyOf c), some s, st, ca⟩, st, ca) := by
  induction ts with
  | nil => rfl
  | cons t rest ih =>
    have ho : postSnippets c st ca t false false = ⟨.existedResp (keyOf c), some s, st, ca⟩ := by
      simp [postSnippets, hlen, hs]
    simp [runPuts, ho, ih, List.replicate_succ]

/-- The reliable read path agrees with the control-flow embedding under
honest backend outcomes. -/
theorem getReliable_eq_flow (ca : CacheState) (st : Store) (k : String) :
    (getReliable ca st k).1 = getSnippetFromKey (cacheGetOf ca k) (dsGetOf st k) true := by
  cases hc : lookupKey ca k <;> cases hs : lookupKey st k <;>
    simp [getReliable, getSnippetFromKey, cacheGetOf, dsGetOf, hc, hs]

/-! ## Claim theorems -/

/-- C1: for content within the size limit and not yet stored, two sequential
writes return the same key, the first as created and the second as already
existing, and exactly one durable record for that key exists afterwards. -/
theorem put_twice_idempotent (c : List Nat) (st : Store) (ca : CacheState) (t1 t2 : Nat)
    (hlen : c.length ≤ maxContentSizeInBytes)
    (hfresh : lookupKey st (keyOf c) = none) :
    (postSnippets c st ca t1 false false).resp = PostResp.createdResp (keyOf c) ∧
    (postSnippets c (postSnippets c st ca t1 false false).store
        (postSnippets c st ca t1 false false).cache t2 false false).resp
      = PostResp.existedResp (keyOf c) ∧
    countKey (postSnippets c (postSnippets c st ca t1 false false).store
        (postSnippets c st ca t1 false false).cache t2 false false).store (keyOf c) = 1 := by
  have hlen' : ¬ c.length > maxContentSizeInBytes := not_lt.mpr hlen
  have h1 : postSnippets c st ca t1 false false =
      ⟨.createdResp (keyOf c), some ⟨t1, c⟩,
       (keyOf c, ⟨t1, c⟩) :: st, (keyOf c, ⟨t1, c⟩) :: ca⟩ := by
    simp [postSnippets, hlen', hfresh]
  have h2 : postSnippets c ((keyOf c, (⟨t1, c⟩ : Snippet)) :: st)
      ((keyOf c, (⟨t1, c⟩ : Snippet)) :: ca) t2 false false =
      ⟨.existedResp (keyOf c), some ⟨t1, c⟩,
       (keyOf c, ⟨t1, c⟩) :: st, (keyOf c, ⟨t1, c⟩) :: ca⟩ := by
    simp [postSnippets, hlen', lookupKey]
  rw [h1]
  refine ⟨rfl, ?_, ?_⟩
  · rw [h2]
  · rw [h2]
    simp [countKey, lookupKey_none_countKey st (keyOf c) hfresh]

/-- C1 witness at empty content from empty states. -/
theorem put_twice_idempotent_witness :
    (postSnippets [] [] [] 0 false false).resp = PostResp.createdResp (keyOf []) ∧
    (postSnippets [] (postSnippets [] [] [] 0 false false).store
        (postSnippets [] [] [] 0 false false).cache 1 false false).resp
      = PostResp.existedResp (keyOf []) ∧
    countKey (postSnippets [] (postSnippets [] [] [] 0 false false).store
        (postSnippets [] [] [] 0 false false).cache 1 false false).store (keyOf []) = 1 :=
  put_twice_idempotent [] [] [] 0 1 (by decide) rfl

/-- C2: any serialized execution of concurrent identical writes on a fresh
key has exactly one winner, the first transaction serialized: it alone
answers created, every other call answers existed with the same key, every
call observes the same record with the creation time of the winner, and one
durable record for the key exists at the end. -/
theorem concurrent_puts_single_winner (c : List Nat) (st : Store) (ca : CacheState)
    (t0 : Nat) (ts : List Nat)
    (hlen : c.length ≤ maxContentSizeInBytes)
    (hfresh : lookupKey st (keyOf c) = none) :
    ((runPuts c (t0 :: ts) st ca).1.map PostOutcome.resp =
        PostResp.createdResp (keyOf c) ::
          List.replicate ts.length (PostResp.existedResp (keyOf c))) ∧
    ((runPuts c (t0 :: ts) st ca).1.map PostOutcome.seen =
        List.replicate (ts.length + 1) (some (⟨t0, c⟩ : Snippet))) ∧
    countKey (runPuts c (t0 :: ts) st ca).2.1 (keyOf c) = 1 := by
  have hlen' : ¬ c.length > maxContentSizeInBytes := not_lt.mpr hlen
  have h1 : postSnippets c st ca t0 false false =
      ⟨.createdResp (keyOf c), some ⟨t0, c⟩,
       (keyOf c, ⟨t0, c⟩) :: st, (keyOf c, ⟨t0, c⟩) :: ca⟩ := by
    simp [postSnippets, hlen', hfresh]
  have hs : lookupKey ((keyOf c, (⟨t0, c⟩ : Snippet)) :: st) (keyOf c) = some ⟨t0, c⟩ := by
    simp [lookupKey]
  have hrun := runPuts_existing c ts ((keyOf c, ⟨t0, c⟩) :: st)
    ((keyOf c, ⟨t0, c⟩) :: ca) ⟨t0, c⟩ hlen' hs
  refine ⟨?_, ?_, ?_⟩
  · simp [runPuts, h1, hrun]
  · simp [runPuts, h1, hrun, List.replicate_succ]
  · simp [runPuts, h1, hrun, countKey, lookupKey_none_countKey st (keyOf c) hfresh]

/-- C2 witness: two serialized writes of the empty content. -/
theorem concurrent_puts_single_winner_witness :
    ((runPuts [] [0, 1] [] []).1.map PostOutcome.resp =
        PostResp.createdResp (keyOf []) ::
          List.replicate 1 (PostResp.existedResp (keyOf []))) ∧
    ((runPuts [] [0, 1] [] []).1.map PostOutcome.seen =
        List.replicate 2 (some (⟨0, []⟩ : Snippet))) ∧
    countKey (runPuts [] [0, 1] [] []).2.1 (keyOf []) = 1 :=
  concurrent_puts_single_winner [] [] [] 0 [1] (by decide) rfl

/-- C3: after writing accepted content whose key maps, in both backends, only
to records carrying that very content, a read of the returned key yields a
record whose content is bitwise equal to the written content. -/
theorem put_get_roundtrip (c : List Nat) (st : Store) (ca : CacheState) (t : Nat)
    (hlen : c.length ≤ maxContentSizeInBytes)
    (hst : ∀ s, lookupKey st (keyOf c) = some s → s.Content = c)
    (hca : ∀ s, lookupKey ca (keyOf c) = some s → s.Content = c) :
    resultContent (getReliable (postSnippets c st ca t false false).cache
        (postSnippets c st ca t false false).store (keyOf c)).1 = some c := by
  have hlen' : ¬ c.length > maxContentSizeInBytes := not_lt.mpr hlen
  cases hfind : lookupKey st (keyOf c) with
  | none =>
    have h1 : postSnippets c st ca t false false =
        ⟨.createdResp (keyOf c), some ⟨t, c⟩,
         (keyOf c, ⟨t, c⟩) :: st, (keyOf c, ⟨t, c⟩) :: ca⟩ := by
      simp [postSnippets, hlen', hfind]
    rw [h1]
    simp [getReliable, lookupKey, resultContent]
  | some s =>
    have h1 : postSnippets c st ca t false false =
        ⟨.existedResp (keyOf c), some s, st, ca⟩ := by
      simp [postSnippets, hlen', hfind]
    rw [h1]
    cases hcf : lookupKey ca (keyOf c) with
    | some s2 => simp [getReliable, hcf, resultContent, hca s2 hcf]
    | none => simp [getReliable, hcf, hfind, resultContent, hst s hfind]

/-- C3 witness at empty content from empty states. -/
theorem put_get_roundtrip_witness :
    resultContent (getReliable (postSnippets [] [] [] 0 false false).cache
        (postSnippets [] [] [] 0 false false).store (keyOf [])).1 = some [] :=
  put_get_roundtrip [] [] [] 0 (by decide)
    (fun s h => by simp [lookupKey] at h) (fun s h => by simp [lookupKey] at h)

/-- C4: the derived key is the SHA-256 digest of the content rendered as
lowercase hexadecimal, 64 characters long and drawn from the lowercase hex
alphabet; as a Lean function the derivation is pure and deterministic, so
equal contents yield equal keys. -/
theorem keyOf_sha256_hex (c : List Nat) :
    keyOf c = String.mk (toHexChars (sha256 c)) ∧
    (keyOf c).length = 64 ∧
    (keyOf c).data.all isHexChar = true := by
  refine ⟨rfl, ?_, toHexChars_all _⟩
  show (toHexChars (sha256 c)).length = 64
  rw [toHexChars_length, sha256_length]

/-- C5: the write path rejects a body of more than 10240 bytes with the
too-big response, leaving both backend states untouched whatever the
backend outcomes would have been, and never produces the too-big response
for a body within the limit. -/
theorem put_size_boundary (c : List Nat) (st : Store) (ca : CacheState) (t : Nat)
    (f1 f2 : Bool) :
    (c.length > maxContentSizeInBytes →
        postSnippets c st ca t f1 f2 = ⟨PostResp.tooBig, none, st, ca⟩) ∧
    (c.length ≤ maxContentSizeInBytes →
        (postSnippets c st ca t f1 f2).resp ≠ PostResp.tooBig) := by
  constructor
  · intro h
    simp [postSnippets, h]
  · intro h
    have h' : ¬ c.length > maxContentSizeInBytes := not_lt.mpr h
    cases f1 <;> cases f2 <;>
      cases hk : lookupKey st (keyOf c) <;>
        simp [postSnippets, h', hk]

/-- C5 witness: 10241 bytes are rejected with states untouched, 10240 bytes
are not rejected as too big. -/
theorem put_size_boundary_witness :
    postSnippets (List.replicate 10241 0) [] [] 0 false false =
      ⟨PostResp.tooBig, none, [], []⟩ ∧
    (postSnippets (List.replicate 10240 0) [] [] 0 false false).resp ≠ PostResp.tooBig :=
  ⟨(put_size_boundary (List.replicate 10241 0) [] [] 0 false false).1
      (by rw [List.length_replicate]; decide),
   (put_size_boundary (List.replicate 10240 0) [] [] 0 false false).2
      (by rw [List.length_replicate]; decide)⟩

/-- C6 counterexample: with the durable store holding the record, a cache
failure distinct from a miss makes the read fail instead of falling through
to the durable store. -/
theorem cache_fail_counterexample :
    getSnippetFromKey CacheGetR.fail (DsGetR.found ⟨0, []⟩) true = GetResult.err ∧
    getSnippetFromKey CacheGetR.fail (DsGetR.found ⟨0, []⟩) true ≠ GetResult.ok ⟨0, []⟩ := by
  decide

/-- C6 (amended): a cache-backend failure distinct from a miss is not
treated as a miss: the read returns the error without regard to the durable
store, failing the request. -/
theorem cache_fail_propagates (dg : DsGetR) (cs : Bool) :
    getSnippetFromKey CacheGetR.fail dg cs = GetResult.err := rfl

/-- C7 counterexample: with the record found in the durable store, a failing
cache-warming set makes the read fail instead of returning the record. -/
theorem warm_fail_counterexample :
    getSnippetFromKey CacheGetR.miss (DsGetR.found ⟨0, []⟩) false = GetResult.err ∧
    getSnippetFromKey CacheGetR.miss (DsGetR.found ⟨0, []⟩) false ≠ GetResult.ok ⟨0, []⟩ := by
  decide

/-- C7 (amended): a failure of the cache-warming set after a durable-store
hit is propagated: the read returns an error, not the record. -/
theorem warm_fail_propagates (s : Snippet) :
    getSnippetFromKey CacheGetR.miss (DsGetR.found s) false = GetResult.err := rfl

/-- C8: on a fresh key the write performs the cache set, whose failure is
reported as the storage error while the durable record stays committed, and
whose success yields the created response with the cache updated; on an
existing key the outcome is the same whether the cache set would fail or
not, and the cache is untouched. -/
theorem put_created_cache_contract (c : List Nat) (st : Store) (ca : CacheState) (t : Nat)
    (hlen : c.length ≤ maxContentSizeInBytes) :
    (lookupKey st (keyOf c) = none →
      postSnippets c st ca t false true =
        ⟨PostResp.storeErr, some ⟨t, c⟩, (keyOf c, ⟨t, c⟩) :: st, ca⟩ ∧
      postSnippets c st ca t false false =
        ⟨PostResp.createdResp (keyOf c), some ⟨t, c⟩,
         (keyOf c, ⟨t, c⟩) :: st, (keyOf c, ⟨t, c⟩) :: ca⟩) ∧
    (∀ s, lookupKey st (keyOf c) = some s →
      postSnippets c st ca t false true = ⟨PostResp.existedResp (keyOf c), some s, st, ca⟩ ∧
      postSnippets c st ca t false false = ⟨PostResp.existedResp (keyOf c), some s, st, ca⟩) := by
  have hlen' : ¬ c.length > maxContentSizeInBytes := not_lt.mpr hlen
  exact ⟨fun h => ⟨by simp [postSnippets, hlen', h], by simp [postSnippets, hlen', h]⟩,
         fun s h => ⟨by simp [postSnippets, hlen', h], by simp [postSnippets, hlen', h]⟩⟩

/-- C8 witness: fresh empty content, with the cache set failing and
succeeding. -/
theorem put_created_cache_contract_witness :
    postSnippets [] [] [] 0 false true =
      ⟨PostResp.storeErr, some ⟨0, []⟩, [(keyOf [], ⟨0, []⟩)], []⟩ ∧
    postSnippets [] [] [] 0 false false =
      ⟨PostResp.createdResp (keyOf []), some ⟨0, []⟩,
       [(keyOf [], ⟨0, []⟩)], [(keyOf [], ⟨0, []⟩)]⟩ :=
  (put_created_cache_contract [] [] [] 0 (by decide)).1 rfl

/-- C9: a read of a key absent from both the cache and the durable store
yields the not-found result, mapped to 404, and an error result arises only
when some backend call failed (cache get, datastore get, or warming set),
in which case the interface answers 500. -/
theorem get_unknown_not_found (ca : CacheState) (st : Store) (k : String)
    (hca : lookupKey ca k = none) (hst : lookupKey st k = none) :
    (getReliable ca st k).1 = GetResult.notFound ∧
    getStatus (getReliable ca st k).1 = 404 ∧
    (∀ cg dg cs, getSnippetFromKey cg dg cs = GetResult.err →
        cg = CacheGetR.fail ∨ dg = DsGetR.fail ∨ cs = false) ∧
    getStatus GetResult.err = 500 := by
  refine ⟨?_, ?_, ?_, rfl⟩
  · simp [getReliable, hca, hst]
  · simp [getReliable, hca, hst, getStatus]
  · intro cg dg cs h
    cases cg with
    | hit s => simp [getSnippetFromKey] at h
    | fail => exact Or.inl rfl
    | miss =>
      cases dg with
      | fail => exact Or.inr (Or.inl rfl)
      | noEntity => simp [getSnippetFromKey] at h
      | found s =>
        cases cs with
        | false => exact Or.inr (Or.inr rfl)
        | true => simp [getSnippetFromKey] at h

/-- C9 witness: a key absent from empty states. -/
theorem get_unknown_not_found_witness :
    (getReliable [] [] "k").1 = GetResult.notFound ∧
    getStatus (getReliable [] [] "k").1 = 404 :=
  ⟨(get_unknown_not_found [] [] "k" rfl rfl).1,
   (get_unknown_not_found [] [] "k" rfl rfl).2.1⟩

set_option maxRecDepth 8192 in
/-- C10: the empty content passes the size validation and is stored, with
both backends updated, under the 64-character lowercase-hex SHA-256 key of
the empty byte sequence. -/
theorem put_empty_accepted :
    postSnippets [] [] [] 0 false false =
      ⟨PostResp.createdResp "e3b0c44298fc1c149afbf4c8996fb92427ae41e4649b934ca495991b7852b855",
       some ⟨0, []⟩,
       [("e3b0c44298fc1c149afbf4c8996fb92427ae41e4649b934ca495991b7852b855", ⟨0, []⟩)],
       [("e3b0c44298fc1c149afbf4c8996fb92427ae41e4649b934ca495991b7852b855", ⟨0, []⟩)]⟩ ∧
    ([] : List Nat).length ≤ maxContentSizeInBytes ∧
    (keyOf []).length = 64 ∧
    (keyOf []).data.all isHexChar = true := by
  decide

end Snippets
